import Mathlib

/-!
# IMP front end and virtual machine: a shallow embedding

This file embeds the lexer (`src/lexer.cpp`), the recursive-descent parser
(`src/parser.cpp` over the AST of `src/ast.h`), and the bytecode virtual
machine (`src/interp.cpp` with the host primitives of `src/runtime.cpp`) of
the IMP language implementation, and proves properties of the embedded
definitions.

Modelling conventions:
* Source locations (file/line/column) are threaded through the C++ code only
  into error messages; no property below concerns them, so tokens and errors
  here carry no location.
* The C++ lexer is pull-based over an input stream; here the input is a
  `List Char` and the lexer returns the remaining input next to each token.
* The C++ parser holds a `Lexer &` whose current token is `Current()`;
  here every parse function takes a `List Token` whose head is the current
  token and returns the remaining stream (`advance` models `lexer_.Next()`,
  which at end of input keeps returning the `END` token, matching
  `List.headD` of the empty list below).
* The parser's recursion in the C++ code is not structurally decreasing
  (see `parseUnaryExpr`), so every parse function carries explicit fuel;
  `PErr.noFuel` reports fuel exhaustion and is distinct from a syntax error.
* The VM stack is a `std::vector` with the top at the back; here it is a
  `List Value` with the top at the head, so `push_back` is cons and
  `resize (size - n)` is `List.drop n`.
-/

namespace Imp

/-! ## Tokens (`Token` in `lexer.h`, constructed by `Lexer::Next`)

The kind set is the one used across `lexer.cpp` and `parser.cpp`:
the keywords `func`/`return`/`while`/`let`/`if`/`else`, punctuation and
operators, the payload-carrying `INT`/`STRING`/`IDENT`, the terminal `END`,
and the kinds `TRUE`/`FALSE`/`BANG`/`GR`/`LE` that `parser.cpp` matches on
(`ParseTermExpr`, `ParseUnaryExpr`, `ParseComparisonExpr`). -/

inductive Token where
  | funcT | returnT | whileT | letT | ifT | elseT
  | lparen | rparen | lbrace | rbrace | colon | semi
  | equal | eqeq | greq | leq | neq | comma
  | plus | incr | minus | decr | star | slash | modT
  | endT
  | int (v : Nat)
  | strT (s : String)
  | ident (s : String)
  | trueT | falseT | bang | gr | le
  deriving DecidableEq

/-- Token kinds (`Token::Kind`): the payload-free shadow of `Token`,
compared by `Parser::Check` / `Parser::Expect`. -/
inductive TokKind where
  | funcT | returnT | whileT | letT | ifT | elseT
  | lparen | rparen | lbrace | rbrace | colon | semi
  | equal | eqeq | greq | leq | neq | comma
  | plus | incr | minus | decr | star | slash | modT
  | endT | int | strT | ident
  | trueT | falseT | bang | gr | le
  deriving DecidableEq

/-- `Token::GetKind`. -/
def Token.kind : Token → TokKind
  | .funcT => .funcT | .returnT => .returnT | .whileT => .whileT
  | .letT => .letT | .ifT => .ifT | .elseT => .elseT
  | .lparen => .lparen | .rparen => .rparen | .lbrace => .lbrace
  | .rbrace => .rbrace | .colon => .colon | .semi => .semi
  | .equal => .equal | .eqeq => .eqeq | .greq => .greq | .leq => .leq
  | .neq => .neq | .comma => .comma | .plus => .plus | .incr => .incr
  | .minus => .minus | .decr => .decr | .star => .star | .slash => .slash
  | .modT => .modT | .endT => .endT
  | .int _ => .int | .strT _ => .strT | .ident _ => .ident
  | .trueT => .trueT | .falseT => .falseT | .bang => .bang
  | .gr => .gr | .le => .le

/-- `Token::GetIdent` (only meaningful on `IDENT` tokens; the C++ accessor
asserts the kind, which every caller has already checked). -/
def Token.getIdent : Token → String
  | .ident s => s
  | _ => ""

/-- `Token::GetString` (only meaningful on `STRING` tokens). -/
def Token.getString : Token → String
  | .strT s => s
  | _ => ""

/-- `Token::GetInteger` (only meaningful on `INT` tokens). -/
def Token.getInteger : Token → Nat
  | .int v => v
  | _ => 0

/-! ## Lexer (`Lexer::Next` in `lexer.cpp`) -/

/-- Lexical errors (`LexerError`); the three `Error(...)` sites in
`Lexer::Next`, kept structured instead of formatted strings. -/
inductive LexErr where
  /-- `Error("unknown character '" + chr + "'")` -/
  | unknownChar (c : Char) : LexErr
  /-- `Error("string not terminated")` -/
  | unterminatedString : LexErr
  /-- `Error("Integer literal out of range!\n")` -/
  | intOutOfRange : LexErr
  /-- Modelling artifact of `tokenizeAux`: fuel exhaustion.  `tokenize`
  always supplies sufficient fuel, so this never arises from it. -/
  | fuelExhausted : LexErr
  deriving DecidableEq

/-- C `isspace` in the default locale, used by the whitespace-skipping loop. -/
def isSpaceC (c : Char) : Bool :=
  c = ' ' || c = '\t' || c = '\n' || c = '\x0b' || c = '\x0c' || c = '\r'

/-- C `isdigit`. -/
def isDigitC (c : Char) : Bool :=
  '0' ≤ c && c ≤ '9'

/-- C `isalpha` in the default locale. -/
def isAlphaC (c : Char) : Bool :=
  ('a' ≤ c && c ≤ 'z') || ('A' ≤ c && c ≤ 'Z')

/-- `IsIdentStart` in `lexer.cpp`. -/
def isIdentStart (c : Char) : Bool :=
  c = '_' || isAlphaC c

/-- `IsIdentLetter` in `lexer.cpp`. -/
def isIdentLetter (c : Char) : Bool :=
  isIdentStart c || isDigitC c

/-- The maximal run of characters satisfying `p` (the `do { word.push_back(chr_);
NextChar(); } while (p(chr_))` loops for digit runs and identifier runs),
returned next to the rest of the input. -/
def takeRun (p : Char → Bool) : List Char → (List Char × List Char)
  | [] => ([], [])
  | c :: cs =>
    if p c then
      let (run, rest) := takeRun p cs
      (c :: run, rest)
    else
      ([], c :: cs)

/-- Decimal value of a digit run. -/
def natOfDigits (ds : List Char) : Nat :=
  ds.foldl (fun acc c => acc * 10 + (c.toNat - '0'.toNat)) 0

/-- Floor of the base-2 logarithm, structurally recursive (first argument
is fuel, always called with the number itself) so that concrete proofs can
evaluate it by kernel reduction. -/
def log2floorAux : Nat → Nat → Nat
  | 0, _ => 0
  | fuel + 1, n => if n ≤ 1 then 0 else log2floorAux fuel (n / 2) + 1

/-- `log2floor n` is the position of the highest set bit of `n` (0 for 0
and 1). -/
def log2floor (n : Nat) : Nat :=
  log2floorAux n n

/-- Round a natural number to the nearest IEEE-754 binary64 value
(53 significant bits, round half to even), as `std::stod` does when the
exact decimal value of the digit run is not representable.  The result is
returned as the exact natural number the chosen double denotes (`2 ^ 1024`
and beyond standing for overflow to infinity). -/
def roundDouble (n : Nat) : Nat :=
  if n < 2 ^ 53 then n
  else
    let e := log2floor n
    let ulp := 2 ^ (e - 52)
    let q := n / ulp
    let r := n % ulp
    if r * 2 < ulp then q * ulp
    else if ulp < r * 2 then (q + 1) * ulp
    else if q % 2 = 0 then q * ulp else (q + 1) * ulp

/-- The integer-literal conversion in `Lexer::Next`: `val = std::stod(word)`
with `uint64_t val`.  `std::stod` parses the digit run as a `double`
(rounding per `roundDouble`) and throws `std::out_of_range` — caught and
turned into `Error("Integer literal out of range!\n")` — exactly when the
value overflows the double range.  The conversion of the resulting double
back to `uint64_t` is value-preserving below `2 ^ 64` (and undefined
behaviour in C++ at `2 ^ 64` and above, which no theorem below exercises;
the model keeps the mathematical value of the double there). -/
def stodPayload (n : Nat) : Except LexErr Nat :=
  if 2 ^ 1024 ≤ roundDouble n then .error .intOutOfRange
  else .ok (roundDouble n)

/-- The keyword reclassification at the end of `Lexer::Next`: exactly
`func`, `return`, `while`, `let`, `if` and `else` are compared against the
identifier run; every other word — `true` and `false` included — falls
through to `Token::Ident`. -/
def keywordToken (w : String) : Token :=
  if w = "func" then .funcT
  else if w = "return" then .returnT
  else if w = "while" then .whileT
  else if w = "let" then .letT
  else if w = "if" then .ifT
  else if w = "else" then .elseT
  else .ident w

/-- The string-literal loop in `Lexer::Next`: collect characters verbatim up
to the closing quote; reaching end of input first is
`Error("string not terminated")`. -/
def stringRun : List Char → Except LexErr (List Char × List Char)
  | [] => .error .unterminatedString
  | c :: cs =>
    if c = '"' then .ok ([], cs)
    else do
      let (run, rest) ← stringRun cs
      .ok (c :: run, rest)

/-- `Lexer::Next`: skip whitespace, then dispatch on the current character.
The `switch` in `lexer.cpp` has cases only for `\0` `(` `)` `{` `}` `:` `;`
`*` `/` `%` `=` `+` `-` `,` `"`, digits and identifier starts; every other
character — `<`, `>` and `!` included — reaches
`Error("unknown character ...")`. -/
def nextToken : List Char → Except LexErr (Token × List Char)
  | [] => .ok (.endT, [])
  | c :: cs =>
    if isSpaceC c then nextToken cs
    else if c = '(' then .ok (.lparen, cs)
    else if c = ')' then .ok (.rparen, cs)
    else if c = '{' then .ok (.lbrace, cs)
    else if c = '}' then .ok (.rbrace, cs)
    else if c = ':' then .ok (.colon, cs)
    else if c = ';' then .ok (.semi, cs)
    else if c = '*' then .ok (.star, cs)
    else if c = '/' then .ok (.slash, cs)
    else if c = '%' then .ok (.modT, cs)
    else if c = '=' then
      match cs with
      | '=' :: cs' => .ok (.eqeq, cs')
      | _ => .ok (.equal, cs)
    else if c = '+' then
      match cs with
      | '+' :: cs' => .ok (.incr, cs')
      | _ => .ok (.plus, cs)
    else if c = '-' then
      match cs with
      | '-' :: cs' => .ok (.decr, cs')
      | _ => .ok (.minus, cs)
    else if c = ',' then .ok (.comma, cs)
    else if c = '"' then do
      let (run, rest) ← stringRun cs
      .ok (.strT ⟨run⟩, rest)
    else if isDigitC c then
      let (run, rest) := takeRun isDigitC cs
      do
        let v ← stodPayload (natOfDigits (c :: run))
        .ok (.int v, rest)
    else if isIdentStart c then
      let (run, rest) := takeRun isIdentLetter cs
      .ok (keywordToken ⟨c :: run⟩, rest)
    else .error (.unknownChar c)

/-- Repeated `Lexer::Next` until the `END` token, producing the whole token
stream (ending in `END`).  Fuel bounds the number of tokens; `nextToken`
consumes at least one character per non-`END` token, so
`input length + 1` fuel always suffices and the fuel error is unreachable
from `tokenize`. -/
def tokenizeAux : Nat → List Char → Except LexErr (List Token)
  | 0, _ => .error .fuelExhausted
  | fuel + 1, cs => do
    let (tk, rest) ← nextToken cs
    match tk with
    | .endT => .ok [.endT]
    | t => do
      let ts ← tokenizeAux fuel rest
      .ok (t :: ts)

/-- Lex a whole source text into its token stream. -/
def tokenize (s : String) : Except LexErr (List Token) :=
  tokenizeAux (s.length + 1) s.toList

/-! ## AST (`ast.h`) -/

/-- `BinaryExpr::Kind`. -/
inductive BinKind where
  | eq | neq | mul | div | mod | le | gr | leq | greq | add | sub
  deriving DecidableEq

/-- `UnaryExpr::Kind`. -/
inductive UnaryKind where
  | not | neg
  deriving DecidableEq

/-- The `Expr` node family of `ast.h`: `IntExpr` (with the `uint64_t`
payload), `BoolExpr`, `StringExpr`, `RefExpr`, `BinaryExpr`, `UnaryExpr`
and `CallExpr`. -/
inductive Expr where
  | int (v : Nat)
  | bool (b : Bool)
  | str (s : String)
  | ref (name : String)
  | binary (k : BinKind) (lhs rhs : Expr)
  | unary (k : UnaryKind) (operand : Expr)
  | call (callee : Expr) (args : List Expr)

/-- The `Stmt` node family of `ast.h`: `BlockStmt`, `ExprStmt`,
`ReturnStmt`, `VarDeclStmt`, `IfStmt` and `WhileStmt`.  The `IfStmt` field
`fstmt_` is a `std::shared_ptr<Stmt>` that `Parser::ParseIfStmt` sets to
`nullptr` when the statement has no `else` clause; the nullable pointer
slot is modelled by `Option Stmt`, `none` standing for the null pointer. -/
inductive Stmt where
  | block (body : List Stmt)
  | exprS (e : Expr)
  | returnS (e : Expr)
  | varDecl (name type : String) (rhs : Expr)
  | ifS (cond : Expr) (tstmt : Stmt) (fstmt : Option Stmt)
  | whileS (cond : Expr) (body : Stmt)

/-- Outcome of dereferencing a nullable `std::shared_ptr<Stmt>`. -/
inductive DerefFault where
  | nullDeref
  deriving DecidableEq

/-- Dereference of a nullable `std::shared_ptr<Stmt>` slot: on the null
pointer (`none`) this is the fault a naive executor would hit. -/
def derefStmt : Option Stmt → Except DerefFault Stmt
  | some s => .ok s
  | none => .error .nullDeref

/-- `IfStmt::GetFalseBranchStmt` (`ast.h`): `return *fstmt_;` — an
unchecked dereference of the nullable false-branch slot.  The accessor is
a member of `IfStmt`, so it is defined on `if` nodes (`some` of the
dereference outcome) and cannot be queried on other nodes (`none`). -/
def getFalseBranchStmt : Stmt → Option (Except DerefFault Stmt)
  | .ifS _ _ f => some (derefStmt f)
  | _ => none

/-! ## Parser (`parser.cpp`)

`Parser` pulls tokens from the lexer with one token of lookahead
(`Current()`); here every parse function consumes a `List Token` whose
head is the current token and returns the rest of the stream.  Each
function carries fuel, spent one unit per function entry; `PErr.noFuel`
reports exhaustion (the C++ code has no such bound — its analogue of a
`noFuel` result for every fuel value is non-termination). -/

/-- Parser errors (`ParserError`), kept structured: `Check`/`Expect` report
the offending token and the expected kind, `ParseTermExpr` reports
`expecting term`. -/
inductive PErr where
  | noFuel
  | unexpected (tk : Token) (expected : TokKind)
  | expectedTerm (tk : Token)
  deriving DecidableEq

/-- `Parser::Current` — `lexer_.GetToken()`; past end of input the lexer
keeps returning `END` (`Lexer::Next` is idempotent at end of stream). -/
def current (ts : List Token) : Token :=
  ts.headD .endT

/-- `lexer_.Next()`: consume the current token. -/
def advance (ts : List Token) : List Token :=
  ts.tail

/-- `Parser::Check`: fail unless the current token has the given kind;
the stream is not advanced. -/
def check (k : TokKind) (ts : List Token) : Except PErr Token :=
  if (current ts).kind = k then .ok (current ts)
  else .error (.unexpected (current ts) k)

/-- `Parser::Expect`: `lexer_.Next()` then `Check(kind)`; returns the new
current token and the advanced stream. -/
def expect (k : TokKind) (ts : List Token) : Except PErr (Token × List Token) := do
  let ts' := advance ts
  let tk ← check k ts'
  .ok (tk, ts')

mutual

/-- `Parser::ParseStmt`: dispatch on the current token's kind. -/
def parseStmt : Nat → List Token → Except PErr (Stmt × List Token)
  | 0, _ => .error .noFuel
  | fuel + 1, ts =>
    match (current ts).kind with
    | .returnT => parseReturnStmt fuel ts
    | .whileT => parseWhileStmt fuel ts
    | .ifT => parseIfStmt fuel ts
    | .letT => parseVarDeclStmt fuel ts
    | .lbrace => parseBlockStmt fuel ts
    | _ => do
      let (e, ts) ← parseExpr fuel ts
      .ok (.exprS e, ts)

/-- The `while (!lexer_.Next().Is(RBRACE))` loop of `Parser::ParseBlockStmt`:
advance (the loop condition's `Next()`); stop if the current token is `}`;
otherwise parse one statement and continue only when it is followed by `;`
— a statement not followed by a semicolon breaks out of the loop with that
following token left as the current token. -/
def parseBlockBody : Nat → List Stmt → List Token → Except PErr (List Stmt × List Token)
  | 0, _, _ => .error .noFuel
  | fuel + 1, acc, ts =>
    let ts := advance ts
    if (current ts).kind = .rbrace then .ok (acc.reverse, ts)
    else do
      let (s, ts) ← parseStmt fuel ts
      if (current ts).kind = .semi then parseBlockBody fuel (s :: acc) ts
      else .ok ((s :: acc).reverse, ts)

/-- `Parser::ParseBlockStmt`: `Check(LBRACE)`, the collection loop, then
`Check(RBRACE)` and a final `Next()`. -/
def parseBlockStmt : Nat → List Token → Except PErr (Stmt × List Token)
  | 0, _ => .error .noFuel
  | fuel + 1, ts => do
    let _ ← check .lbrace ts
    let (body, ts) ← parseBlockBody fuel [] ts
    let _ ← check .rbrace ts
    .ok (.block body, advance ts)

/-- `Parser::ParseReturnStmt`. -/
def parseReturnStmt : Nat → List Token → Except PErr (Stmt × List Token)
  | 0, _ => .error .noFuel
  | fuel + 1, ts => do
    let _ ← check .returnT ts
    let (e, ts) ← parseExpr fuel (advance ts)
    .ok (.returnS e, ts)

/-- `Parser::ParseWhileStmt`. -/
def parseWhileStmt : Nat → List Token → Except PErr (Stmt × List Token)
  | 0, _ => .error .noFuel
  | fuel + 1, ts => do
    let _ ← check .whileT ts
    let (_, ts) ← expect .lparen ts
    let (cond, ts) ← parseExpr fuel (advance ts)
    let _ ← check .rparen ts
    let (body, ts) ← parseStmt fuel (advance ts)
    .ok (.whileS cond body, ts)

/-- `Parser::ParseIfStmt`: condition, true branch, then — only if the
current token is `else` — a false branch; otherwise the node is built with
the null pointer (`none`) in the false-branch slot. -/
def parseIfStmt : Nat → List Token → Except PErr (Stmt × List Token)
  | 0, _ => .error .noFuel
  | fuel + 1, ts => do
    let _ ← check .ifT ts
    let (_, ts) ← expect .lparen ts
    let (cond, ts) ← parseExpr fuel (advance ts)
    let _ ← check .rparen ts
    let (tstmt, ts) ← parseStmt fuel (advance ts)
    if (current ts).kind = .elseT then do
      let (fstmt, ts) ← parseStmt fuel (advance ts)
      .ok (.ifS cond tstmt (some fstmt), ts)
    else
      .ok (.ifS cond tstmt none, ts)

/-- `Parser::ParseVarDeclStmt`; the terminating `;` is checked but not
consumed (the block loop's `Next()` consumes it). -/
def parseVarDeclStmt : Nat → List Token → Except PErr (Stmt × List Token)
  | 0, _ => .error .noFuel
  | fuel + 1, ts => do
    let _ ← check .letT ts
    let (ntk, ts) ← expect .ident ts
    let (_, ts) ← expect .colon ts
    let (ttk, ts) ← expect .ident ts
    let (_, ts) ← expect .equal ts
    let (e, ts) ← parseExpr fuel (advance ts)
    let _ ← check .semi ts
    .ok (.varDecl ntk.getIdent ttk.getIdent e, ts)

/-- `Parser::ParseExpr`: delegates to the lowest-precedence level,
equality. -/
def parseExpr : Nat → List Token → Except PErr (Expr × List Token)
  | 0, _ => .error .noFuel
  | fuel + 1, ts => parseEqualityExpr fuel ts

/-- `Parser::ParseEqualityExpr`: one operand, then the `==`/`!=` loop. -/
def parseEqualityExpr : Nat → List Token → Except PErr (Expr × List Token)
  | 0, _ => .error .noFuel
  | fuel + 1, ts => do
    let (lhs, ts) ← parseComparisonExpr fuel ts
    parseEqualityLoop fuel lhs ts

/-- The `while` loop of `ParseEqualityExpr`: left-associative folding of
`==`/`!=` operands. -/
def parseEqualityLoop : Nat → Expr → List Token → Except PErr (Expr × List Token)
  | 0, _, _ => .error .noFuel
  | fuel + 1, lhs, ts =>
    let k := (current ts).kind
    if k = .eqeq ∨ k = .neq then do
      let (rhs, ts) ← parseComparisonExpr fuel (advance ts)
      parseEqualityLoop fuel
        (.binary (if k = .eqeq then .eq else .neq) lhs rhs) ts
    else .ok (lhs, ts)

/-- `Parser::ParseComparisonExpr`: one operand, then the `>`/`>=`/`<`/`<=`
loop. -/
def parseComparisonExpr : Nat → List Token → Except PErr (Expr × List Token)
  | 0, _ => .error .noFuel
  | fuel + 1, ts => do
    let (lhs, ts) ← parseAddSubExpr fuel ts
    parseComparisonLoop fuel lhs ts

/-- The `while` loop of `ParseComparisonExpr`: left-associative folding of
relational operands. -/
def parseComparisonLoop : Nat → Expr → List Token → Except PErr (Expr × List Token)
  | 0, _, _ => .error .noFuel
  | fuel + 1, lhs, ts =>
    let k := (current ts).kind
    if k = .gr ∨ k = .greq ∨ k = .le ∨ k = .leq then do
      let (rhs, ts) ← parseAddSubExpr fuel (advance ts)
      let op : BinKind :=
        if k = .gr then .gr else if k = .greq then .greq
        else if k = .le then .le else .leq
      parseComparisonLoop fuel (.binary op lhs rhs) ts
    else .ok (lhs, ts)

/-- `Parser::ParseAddSubExpr`: one operand, then the `+`/`-` loop. -/
def parseAddSubExpr : Nat → List Token → Except PErr (Expr × List Token)
  | 0, _ => .error .noFuel
  | fuel + 1, ts => do
    let (lhs, ts) ← parseMulDivExpr fuel ts
    parseAddSubLoop fuel lhs ts

/-- The `while` loop of `ParseAddSubExpr`. -/
def parseAddSubLoop : Nat → Expr → List Token → Except PErr (Expr × List Token)
  | 0, _, _ => .error .noFuel
  | fuel + 1, lhs, ts =>
    let k := (current ts).kind
    if k = .plus ∨ k = .minus then do
      let (rhs, ts) ← parseMulDivExpr fuel (advance ts)
      parseAddSubLoop fuel
        (.binary (if k = .plus then .add else .sub) lhs rhs) ts
    else .ok (lhs, ts)

/-- `Parser::ParseMulDivExpr`: one operand, then the `*`/`/`/`%` loop. -/
def parseMulDivExpr : Nat → List Token → Except PErr (Expr × List Token)
  | 0, _ => .error .noFuel
  | fuel + 1, ts => do
    let (lhs, ts) ← parseUnaryExpr fuel ts
    parseMulDivLoop fuel lhs ts

/-- The `while` loop of `ParseMulDivExpr`. -/
def parseMulDivLoop : Nat → Expr → List Token → Except PErr (Expr × List Token)
  | 0, _, _ => .error .noFuel
  | fuel + 1, lhs, ts =>
    let k := (current ts).kind
    if k = .star ∨ k = .slash ∨ k = .modT then do
      let (rhs, ts) ← parseUnaryExpr fuel (advance ts)
      let op : BinKind :=
        if k = .star then .mul else if k = .slash then .div else .mod
      parseMulDivLoop fuel (.binary op lhs rhs) ts
    else .ok (lhs, ts)

/-- `Parser::ParseUnaryExpr`.  Note: in `parser.cpp` the `BANG` and `MINUS`
cases recurse into `ParseUnaryExpr` *without* consuming the operator token
(there is no `lexer_.Next()` before the recursive call); the embedding
mirrors this: the recursive call receives the unchanged stream `ts`. -/
def parseUnaryExpr : Nat → List Token → Except PErr (Expr × List Token)
  | 0, _ => .error .noFuel
  | fuel + 1, ts =>
    match (current ts).kind with
    | .bang => do
      let (operand, ts') ← parseUnaryExpr fuel ts
      .ok (.unary .not operand, ts')
    | .minus => do
      let (operand, ts') ← parseUnaryExpr fuel ts
      .ok (.unary .neg operand, ts')
    | _ => parseCallExpr fuel ts

/-- `Parser::ParseCallExpr`: a term, then at most one parenthesized
argument-list suffix. -/
def parseCallExpr : Nat → List Token → Except PErr (Expr × List Token)
  | 0, _ => .error .noFuel
  | fuel + 1, ts => do
    let (e, ts) ← parseTermExpr fuel ts
    if (current ts).kind = .lparen then parseArgumentList fuel e ts
    else .ok (e, ts)

/-- The `while (!lexer_.Next().Is(RPAREN))` loop of
`Parser::ParseArgumentList`. -/
def parseArgsLoop : Nat → List Expr → List Token → Except PErr (List Expr × List Token)
  | 0, _, _ => .error .noFuel
  | fuel + 1, acc, ts =>
    let ts := advance ts
    if (current ts).kind = .rparen then .ok (acc.reverse, ts)
    else do
      let (e, ts) ← parseExpr fuel ts
      if (current ts).kind = .comma then parseArgsLoop fuel (e :: acc) ts
      else .ok ((e :: acc).reverse, ts)

/-- `Parser::ParseArgumentList`: the argument loop, `Check(RPAREN)`, a final
`Next()`, and the `CallExpr` node. -/
def parseArgumentList : Nat → Expr → List Token → Except PErr (Expr × List Token)
  | 0, _, _ => .error .noFuel
  | fuel + 1, callee, ts => do
    let (args, ts) ← parseArgsLoop fuel [] ts
    let _ ← check .rparen ts
    .ok (.call callee args, advance ts)

/-- `Parser::ParseTermExpr`: the atoms.  The `INT`, `TRUE`, `FALSE`,
`STRING` and `IDENT` cases consume the token and build the literal or
reference node; `(` opens a parenthesized sub-expression; anything else is
the `unexpected ..., expecting term` syntax error. -/
def parseTermExpr : Nat → List Token → Except PErr (Expr × List Token)
  | 0, _ => .error .noFuel
  | fuel + 1, ts =>
    match current ts with
    | .int v => .ok (.int v, advance ts)
    | .trueT => .ok (.bool true, advance ts)
    | .falseT => .ok (.bool false, advance ts)
    | .strT s => .ok (.str s, advance ts)
    | .ident s => .ok (.ref s, advance ts)
    | tk =>
      if tk.kind = .lparen then do
        let (e, ts) ← parseExpr fuel (advance ts)
        let _ ← check .rparen ts
        .ok (e, advance ts)
      else .error (.expectedTerm tk)

end

/-! ## Virtual machine (`interp.cpp`, primitives in `runtime.cpp`)

The byte-encoded instruction stream (`Program::Read<T>` advances `pc` past
the opcode and each operand) is modelled at instruction granularity: the
program is a `List Instr`, `pc` indexes into it, and reading an
instruction advances `pc` by one — so the return address `Push(pc_)` in
the `CALL` case, taken after the opcode has been read, is `pc + 1`, the
index of the next instruction, exactly as in the byte-level stream.

`interp.h` is not part of the sources; the stack-accessor helpers it
declares (`Push`, `Pop`, `PopInt`, `PopBool`, `PopAddr`, `PeekInt`,
`PeekBool`) are modelled from the spec, §4.4/§7: pop or peek with a tag
check, a mismatch raising a typed runtime error. -/

/-- The host primitives registered in `kRuntimeFns` (`runtime.cpp`). -/
inductive Prim where
  | printInt | readInt | printBool
  deriving DecidableEq

/-- `Value` — the tagged runtime value: 64-bit signed integer, boolean,
string, code address, primitive handle.  (C++ `int64_t` arithmetic
overflow is undefined behaviour; the model carries unbounded `Int`, and no
theorem below depends on overflowing arithmetic.) -/
inductive Value where
  | int (i : Int)
  | bool (b : Bool)
  | str (s : String)
  | addr (a : Nat)
  | proto (p : Prim)
  deriving DecidableEq

/-- The instruction set executed by `Interp::Run`. -/
inductive Instr where
  | pushFunc (a : Nat)
  | pushProto (p : Prim)
  | pushInt (i : Int)
  | pushBool (b : Bool)
  | pushString
  | peekI (k : Nat)
  | popI
  | callI
  | add | sub | mul | div | mod
  | eqI | neqI | leqI | greqI | leI | grI
  | neg | notI
  | ret (depth nargs : Nat)
  | jump (a : Nat)
  | jumpFalse (a : Nat)
  | stop
  deriving DecidableEq

/-- `RuntimeError` (and the `std::logic_error` for `PUSH_STRING`), kept
structured.  The three `CALL` messages are the ones thrown in
`interp.cpp`; `tagMismatch` stands for the typed error of the
spec-modelled accessors of `interp.h`; `underflow` and `badPc` mark stack
and program accesses that are undefined behaviour in the C++ code and are
not exercised by any theorem below. -/
inductive RTErr where
  /-- `throw RuntimeError("cannot call integer")` -/
  | cannotCallInt
  /-- `throw RuntimeError("cannot call boolean")` -/
  | cannotCallBool
  /-- `throw RuntimeError("cannot call string")` -/
  | cannotCallStr
  /-- Modelled from the spec: a pop/peek accessor found the wrong tag. -/
  | tagMismatch
  /-- `throw std::logic_error("Not yet implemented")` for `PUSH_STRING`. -/
  | notImplemented
  /-- Modelling artifact: pop/peek from too few stack slots (UB in C++). -/
  | underflow
  /-- Modelling artifact: instruction fetch past the stream (UB in C++). -/
  | badPc
  deriving DecidableEq

/-- The interpreter state: `pc_`, the single operand/call stack `stack_`
(top of stack at the head of the list; the C++ `std::vector` keeps the top
at the back), and the observable I/O of the host primitives — `input`
models the integers `read_int` takes from `std::cin` (0 once exhausted, as
`operator>>` zeroes its argument on failure since C++11) and `output` the
strings printed to `std::cout`. -/
structure InterpState where
  pc : Nat
  stack : List Value
  input : List Int
  output : List String
  deriving DecidableEq

/-- Modelled from the spec (`interp.h`): `Pop` — remove and return the top
of the stack. -/
def popV : List Value → Except RTErr (Value × List Value)
  | [] => .error .underflow
  | v :: rest => .ok (v, rest)

/-- Modelled from the spec (`interp.h`): `PopInt` — pop, requiring the
integer tag. -/
def popInt (st : List Value) : Except RTErr (Int × List Value) := do
  let (v, rest) ← popV st
  match v with
  | .int i => .ok (i, rest)
  | _ => .error .tagMismatch

/-- Modelled from the spec (`interp.h`): `PopBool`. -/
def popBool (st : List Value) : Except RTErr (Bool × List Value) := do
  let (v, rest) ← popV st
  match v with
  | .bool b => .ok (b, rest)
  | _ => .error .tagMismatch

/-- Modelled from the spec (`interp.h`): `PopAddr` — pop the saved return
address. -/
def popAddr (st : List Value) : Except RTErr (Nat × List Value) := do
  let (v, rest) ← popV st
  match v with
  | .addr a => .ok (a, rest)
  | _ => .error .tagMismatch

/-- Modelled from the spec (`interp.h`): `PeekInt` — read the top of the
stack without removing it, requiring the integer tag. -/
def peekInt (st : List Value) : Except RTErr Int :=
  match st with
  | .int i :: _ => .ok i
  | [] => .error .underflow
  | _ => .error .tagMismatch

/-- Modelled from the spec (`interp.h`): `PeekBool`. -/
def peekBool (st : List Value) : Except RTErr Bool :=
  match st with
  | .bool b :: _ => .ok b
  | [] => .error .underflow
  | _ => .error .tagMismatch

/-- The host primitives of `runtime.cpp`.  `PrintInt` peeks the integer on
top of the stack, prints it, and pushes a copy (the argument is *not*
popped); `PrintBool` does the same for a boolean, printing `true`/`false`;
`ReadInt` reads an integer from standard input and pushes it. -/
def runPrim : Prim → InterpState → Except RTErr InterpState
  | .printInt, s => do
    let v ← peekInt s.stack
    .ok { s with stack := .int v :: s.stack, output := s.output ++ [toString v] }
  | .printBool, s => do
    let v ← peekBool s.stack
    .ok { s with stack := .bool v :: s.stack,
                 output := s.output ++ [if v then "true" else "false"] }
  | .readInt, s =>
    match s.input with
    | [] => .ok { s with stack := .int 0 :: s.stack }
    | i :: rest => .ok { s with stack := .int i :: s.stack, input := rest }

/-- Result of one iteration of the `Interp::Run` loop: `continue` with a
new state, `return` on `STOP`, or a thrown error.  A C++ exception leaves
the `Interp` object — and thus its stack — as it was at the throw point,
so the error carries that state for a containing harness to inspect. -/
inductive StepResult where
  | next (s : InterpState)
  | halt (s : InterpState)
  | err (e : RTErr) (s : InterpState)
  deriving DecidableEq

/-- Binary arithmetic cases of `Interp::Run` (`ADD` … `MOD`): pop the
right operand, then the left, both integers, and push the result.
`DIV`/`MOD` follow C++ `int64_t` semantics (truncation towards zero); the
division-by-zero case is undefined behaviour in C++ and not exercised by
any theorem below. -/
def arithStep (f : Int → Int → Int) (s : InterpState) : StepResult :=
  match popInt s.stack with
  | .error e => .err e { s with stack := s.stack.tail }
  | .ok (rhs, st1) =>
    match popInt st1 with
    | .error e => .err e { s with stack := st1.tail }
    | .ok (lhs, st2) => .next { s with stack := .int (f lhs rhs) :: st2 }

/-- Comparison cases of `Interp::Run` (`EQ` … `GR`): pop the right then the
left integer operand and push the boolean result. -/
def cmpStep (f : Int → Int → Bool) (s : InterpState) : StepResult :=
  match popInt s.stack with
  | .error e => .err e { s with stack := s.stack.tail }
  | .ok (rhs, st1) =>
    match popInt st1 with
    | .error e => .err e { s with stack := st1.tail }
    | .ok (lhs, st2) => .next { s with stack := .bool (f lhs rhs) :: st2 }

/-- One iteration of the fetch–decode–execute loop of `Interp::Run`.
`prog.get? s.pc` is the `Read<Opcode>` fetch; in every case below the
state passed on already has `pc` advanced past the instruction
(`s.pc + 1`), matching the C++ `Read` calls advancing `pc_` before the
case body runs. -/
def step (prog : List Instr) (s : InterpState) : StepResult :=
  match prog.get? s.pc with
  | none => .err .badPc s
  | some instr =>
    let s := { s with pc := s.pc + 1 }
    match instr with
    | .pushFunc a => .next { s with stack := .addr a :: s.stack }
    | .pushProto p => .next { s with stack := .proto p :: s.stack }
    | .pushInt i => .next { s with stack := .int i :: s.stack }
    | .pushBool b => .next { s with stack := .bool b :: s.stack }
    | .pushString => .err .notImplemented s
    | .peekI k =>
      match s.stack.get? k with
      | none => .err .underflow s
      | some v => .next { s with stack := v :: s.stack }
    | .popI =>
      match popV s.stack with
      | .error e => .err e s
      | .ok (_, rest) => .next { s with stack := rest }
    | .callI =>
      match popV s.stack with
      | .error e => .err e s
      | .ok (callee, rest) =>
        let s := { s with stack := rest }
        match callee with
        | .proto p =>
          match runPrim p s with
          | .ok s' => .next s'
          | .error e => .err e s
        | .addr a => .next { s with pc := a, stack := .addr s.pc :: rest }
        | .int _ => .err .cannotCallInt s
        | .bool _ => .err .cannotCallBool s
        | .str _ => .err .cannotCallStr s
    | .add => arithStep (· + ·) s
    | .sub => arithStep (· - ·) s
    | .mul => arithStep (· * ·) s
    | .div => arithStep Int.tdiv s
    | .mod => arithStep Int.tmod s
    | .eqI => cmpStep (fun a b => a = b) s
    | .neqI => cmpStep (fun a b => a ≠ b) s
    | .leqI => cmpStep (fun a b => a ≤ b) s
    | .greqI => cmpStep (fun a b => b ≤ a) s
    | .leI => cmpStep (fun a b => a < b) s
    | .grI => cmpStep (fun a b => b < a) s
    | .neg =>
      match popInt s.stack with
      | .error e => .err e { s with stack := s.stack.tail }
      | .ok (i, rest) => .next { s with stack := .int (-i) :: rest }
    | .notI =>
      match popBool s.stack with
      | .error e => .err e { s with stack := s.stack.tail }
      | .ok (b, rest) => .next { s with stack := .bool (!b) :: rest }
    | .ret depth nargs =>
      -- v = Pop(); resize(size - depth); pc = PopAddr();
      -- resize(size - nargs); Push(v)
      match popV s.stack with
      | .error e => .err e s
      | .ok (v, st1) =>
        let st2 := st1.drop depth
        match popAddr st2 with
        | .error e => .err e { s with stack := st2 }
        | .ok (a, st3) => .next { s with pc := a, stack := v :: st3.drop nargs }
    | .jump a => .next { s with pc := a }
    | .jumpFalse a =>
      match popBool s.stack with
      | .error e => .err e { s with stack := s.stack.tail }
      | .ok (b, rest) =>
        if b then .next { s with stack := rest }
        else .next { s with pc := a, stack := rest }
    | .stop => .halt s

/-! ## Properties -/

/-- C1: For a source text of the form `x < y` the claim expects lexing to
succeed with relational operator tokens and parsing to build a
left-associative relational node.  On the code, the `switch` of
`Lexer::Next` has no case for `<`, `>` or `!`, so each of the four
relational source forms is a lexical error (`unknown character`); at the
token level, `Parser::ParseComparisonExpr` does fold the relational token
kinds left-associatively at the level between equality and additive — but
the lexer can never produce those tokens. -/
theorem relational_lex_error_but_parse_left_assoc :
    tokenize "a < b" = .error (.unknownChar '<') ∧
    tokenize "a <= b" = .error (.unknownChar '<') ∧
    tokenize "a > b" = .error (.unknownChar '>') ∧
    tokenize "a >= b" = .error (.unknownChar '>') ∧
    parseExpr 50 [.ident "a", .le, .ident "b", .endT]
      = .ok (.binary .le (.ref "a") (.ref "b"), [.endT]) ∧
    parseExpr 50 [.ident "a", .le, .ident "b", .gr, .ident "c", .endT]
      = .ok (.binary .gr (.binary .le (.ref "a") (.ref "b")) (.ref "c"), [.endT]) ∧
    parseExpr 50 [.ident "a", .eqeq, .ident "b", .le, .ident "c", .endT]
      = .ok (.binary .eq (.ref "a") (.binary .le (.ref "b") (.ref "c")), [.endT]) ∧
    parseExpr 50 [.ident "a", .le, .ident "b", .plus, .ident "c", .endT]
      = .ok (.binary .le (.ref "a") (.binary .add (.ref "b") (.ref "c")), [.endT]) :=
  ⟨rfl, rfl, rfl, rfl, rfl, rfl, rfl, rfl⟩

/-- C2: `Parser::ParseUnaryExpr` recurses into itself on a leading `-` or
`!` without consuming the operator token, so on any stream whose current
token is `MINUS` or `BANG` it never terminates: for every fuel bound the
fueled embedding exhausts its fuel without producing a node. -/
theorem parseUnaryExpr_never_terminates (fuel : Nat) (rest : List Token) :
    parseUnaryExpr fuel (.minus :: rest) = .error .noFuel ∧
    parseUnaryExpr fuel (.bang :: rest) = .error .noFuel := by
  induction fuel with
  | zero => exact ⟨rfl, rfl⟩
  | succ n ih =>
    have e1 : parseUnaryExpr (n + 1) (.minus :: rest)
        = (parseUnaryExpr n (.minus :: rest)).bind
            (fun x => Except.ok (Expr.unary .neg x.1, x.2)) := rfl
    have e2 : parseUnaryExpr (n + 1) (.bang :: rest)
        = (parseUnaryExpr n (.bang :: rest)).bind
            (fun x => Except.ok (Expr.unary .not x.1, x.2)) := rfl
    refine ⟨?_, ?_⟩
    · rw [e1, ih.1]; rfl
    · rw [e2, ih.2]; rfl

/-- C3: The keyword table at the end of `Lexer::Next` contains only
`func`/`return`/`while`/`let`/`if`/`else`; the words `true` and `false`
fall through to identifier tokens, and parsing them yields identifier
references, not boolean literals.  The parser's `TRUE`/`FALSE` cases in
`ParseTermExpr` would build the boolean literals, but the lexer never
emits those token kinds. -/
theorem true_false_lex_as_identifiers :
    tokenize "true" = .ok [.ident "true", .endT] ∧
    tokenize "false" = .ok [.ident "false", .endT] ∧
    parseExpr 50 [.ident "true", .endT] = .ok (.ref "true", [.endT]) ∧
    parseExpr 50 [.ident "false", .endT] = .ok (.ref "false", [.endT]) ∧
    parseTermExpr 1 [.trueT, .endT] = .ok (.bool true, [.endT]) ∧
    parseTermExpr 1 [.falseT, .endT] = .ok (.bool false, [.endT]) :=
  ⟨rfl, rfl, rfl, rfl, rfl, rfl⟩

/-- C4: executing `RET depth nargs` on a stack of the shape
`[... args, return address, locals, return value]` (top last here, i.e.
head of the list first) pops the return value, discards the `depth`
locals, pops the return address into `pc`, discards the `nargs` arguments
and pushes the return value back: the final stack is the base with just
the return value on top, a net height decrease of `depth + nargs + 1`. -/
theorem ret_discards_locals_addr_args
    (prog : List Instr) (pc a depth nargs : Nat)
    (base args locals : List Value) (v : Value)
    (inp : List Int) (out : List String)
    (hfetch : prog.get? pc = some (.ret depth nargs))
    (hdepth : locals.length = depth) (hnargs : args.length = nargs) :
    step prog ⟨pc, v :: (locals ++ .addr a :: (args ++ base)), inp, out⟩
      = .next ⟨a, v :: base, inp, out⟩ ∧
    (v :: (locals ++ .addr a :: (args ++ base))).length
      = (v :: base).length + (depth + nargs + 1) := by
  subst hdepth hnargs
  simp only [List.get?_eq_getElem?] at hfetch
  constructor
  · have h1 : popV (v :: (locals ++ Value.addr a :: (args ++ base)))
        = .ok (v, locals ++ Value.addr a :: (args ++ base)) := rfl
    have h2 : popAddr (Value.addr a :: (args ++ base)) = .ok (a, args ++ base) := rfl
    simp [step, hfetch, h1, h2, List.drop_left]
  · simp [List.length_append, List.length_cons]
    omega

/-- C4 witness: `RET 1 2` at a concrete six-slot stack. -/
theorem ret_discards_locals_addr_args_witness :
    step [Instr.ret 1 2]
        ⟨0, [.int 42, .int 9, .addr 7, .int 1, .int 2, .str "base"], [], []⟩
      = .next ⟨7, [.int 42, .str "base"], [], []⟩ :=
  (ret_discards_locals_addr_args [Instr.ret 1 2] 0 7 1 2
    [.str "base"] [.int 1, .int 2] [.int 9] (.int 42) [] [] rfl rfl rfl).1

/-- C5: `CALL` pops the callee; on an integer, boolean or string it throws
the corresponding typed `RuntimeError`, leaving the stack below the popped
callee untouched in the carried state; on a code address it pushes the
return address (the index of the next instruction) and jumps; on a
primitive handle it runs the primitive synchronously on the state with the
callee popped and `pc` already at the next instruction. -/
theorem call_dispatch_semantics
    (prog : List Instr) (pc : Nat) (rest : List Value)
    (inp : List Int) (out : List String)
    (hfetch : prog.get? pc = some .callI) :
    (∀ i : Int, step prog ⟨pc, .int i :: rest, inp, out⟩
        = .err .cannotCallInt ⟨pc + 1, rest, inp, out⟩) ∧
    (∀ b : Bool, step prog ⟨pc, .bool b :: rest, inp, out⟩
        = .err .cannotCallBool ⟨pc + 1, rest, inp, out⟩) ∧
    (∀ s : String, step prog ⟨pc, .str s :: rest, inp, out⟩
        = .err .cannotCallStr ⟨pc + 1, rest, inp, out⟩) ∧
    (∀ a : Nat, step prog ⟨pc, .addr a :: rest, inp, out⟩
        = .next ⟨a, .addr (pc + 1) :: rest, inp, out⟩) ∧
    (∀ p : Prim, step prog ⟨pc, .proto p :: rest, inp, out⟩
        = match runPrim p ⟨pc + 1, rest, inp, out⟩ with
          | .ok s' => .next s'
          | .error e => .err e ⟨pc + 1, rest, inp, out⟩) := by
  simp only [List.get?_eq_getElem?] at hfetch
  refine ⟨fun i => ?_, fun b => ?_, fun s => ?_, fun a => ?_, fun p => ?_⟩ <;>
    simp [step, hfetch, popV]

/-- C5 witness: `CALL` on a pushed integer `5` with a string below it. -/
theorem call_dispatch_semantics_witness :
    step [Instr.callI] ⟨0, [.int 5, .str "below"], [], []⟩
      = .err .cannotCallInt ⟨1, [.str "below"], [], []⟩ :=
  (call_dispatch_semantics [Instr.callI] 0 [.str "below"] [] [] rfl).1 5

/-- C6: the integer-literal conversion in `Lexer::Next` goes through
`std::stod`, i.e. through a 53-bit-mantissa double: the digit run
`9007199254740993` (`2 ^ 53 + 1`, comfortably inside 64 bits) produces the
payload `9007199254740992`, not the exact decimal value, and no lexical
error is raised. -/
theorem int_literal_stod_precision_bug :
    tokenize "9007199254740993" = .ok [.int 9007199254740992, .endT] ∧
    (9007199254740993 : Nat) < 2 ^ 64 ∧
    (9007199254740992 : Nat) ≠ 9007199254740993 :=
  ⟨by set_option maxRecDepth 8000 in rfl, by norm_num, by norm_num⟩

/-- C7 counterexample: parsing `if (a) b` (no else) yields an `IfStmt`
whose false-branch slot holds the null pointer, and the unchecked
dereference performed by `IfStmt::GetFalseBranchStmt` faults on it —
the absent branch is exactly the bare null an executor can dereference,
not a checked "no value" representation. -/
theorem if_no_else_null_deref_cex :
    parseStmt 50 [.ifT, .lparen, .ident "a", .rparen, .ident "b", .endT]
      = .ok (.ifS (.ref "a") (.exprS (.ref "b")) none, [.endT]) ∧
    getFalseBranchStmt (.ifS (.ref "a") (.exprS (.ref "b")) none)
      = some (.error .nullDeref) :=
  ⟨rfl, rfl⟩

/-- C7 (amended): whenever `ParseIfStmt` finds no `else` after the true
branch, it stores the null pointer in the false-branch slot of the
resulting node, and `GetFalseBranchStmt` dereferences that slot unchecked,
faulting on such a node. -/
theorem parseIfStmt_no_else_null_slot
    (fuel : Nat) (ts0 ts1 ts2 : List Token) (c : Expr) (t : Stmt)
    (hc : parseExpr fuel ts0 = .ok (c, .rparen :: ts1))
    (ht : parseStmt fuel ts1 = .ok (t, ts2))
    (hnoelse : ¬ (current ts2).kind = .elseT) :
    parseIfStmt (fuel + 1) (.ifT :: .lparen :: ts0) = .ok (.ifS c t none, ts2) ∧
    getFalseBranchStmt (.ifS c t none) = some (.error .nullDeref) := by
  refine ⟨?_, rfl⟩
  have hb : ∀ {α β : Type} (x : α) (f : α → Except PErr β),
      (Except.ok x >>= f) = f x := fun _ _ => rfl
  have e : parseIfStmt (fuel + 1) (Token.ifT :: Token.lparen :: ts0)
      = (parseExpr fuel ts0 >>= fun cp =>
          check .rparen cp.2 >>= fun _ =>
          parseStmt fuel (advance cp.2) >>= fun tp =>
          if (current tp.2).kind = TokKind.elseT then
            parseStmt fuel (advance tp.2) >>= fun fp =>
              Except.ok (Stmt.ifS cp.1 tp.1 (some fp.1), fp.2)
          else Except.ok (Stmt.ifS cp.1 tp.1 none, tp.2)) := rfl
  rw [e, hc]
  simp only [hb]
  have hchk : check TokKind.rparen (Token.rparen :: ts1) = .ok Token.rparen := rfl
  rw [hchk]
  simp only [hb]
  have hadv : advance (Token.rparen :: ts1) = ts1 := rfl
  rw [hadv, ht]
  simp only [hb]
  rw [if_neg hnoelse]

/-- C7 witness: the amended statement at the concrete input `if (a) b`. -/
theorem parseIfStmt_no_else_null_slot_witness :
    parseIfStmt 50 [.ifT, .lparen, .ident "a", .rparen, .ident "b", .endT]
      = .ok (.ifS (.ref "a") (.exprS (.ref "b")) none, [.endT]) ∧
    getFalseBranchStmt (.ifS (.ref "a") (.exprS (.ref "b")) none)
      = some (.error .nullDeref) :=
  parseIfStmt_no_else_null_slot 49 [.ident "a", .rparen, .ident "b", .endT]
    [.ident "b", .endT] [.endT] (.ref "a") (.exprS (.ref "b"))
    rfl rfl (by decide)

/-- C8: in `{ a; b c }` the statement-collection loop of
`ParseBlockStmt` stops right after `b` (the statement list so far is
`[a, b]` and the stream is left at `c`); `c` is never consumed as a
statement — the whole block parse then reports `c` where `}` was expected.
A block whose last statement has no trailing semicolon but is followed by
`}` parses normally. -/
theorem block_missing_semi_stops_early :
    tokenize "\x7b a; b c \x7d"
      = .ok [.lbrace, .ident "a", .semi, .ident "b", .ident "c", .rbrace, .endT] ∧
    parseBlockBody 50 []
        [.lbrace, .ident "a", .semi, .ident "b", .ident "c", .rbrace, .endT]
      = .ok ([.exprS (.ref "a"), .exprS (.ref "b")], [.ident "c", .rbrace, .endT]) ∧
    parseBlockStmt 50
        [.lbrace, .ident "a", .semi, .ident "b", .ident "c", .rbrace, .endT]
      = .error (.unexpected (.ident "c") .rbrace) ∧
    parseBlockStmt 50 [.lbrace, .ident "a", .semi, .ident "b", .rbrace, .endT]
      = .ok (.block [.exprS (.ref "a"), .exprS (.ref "b")], [.endT]) :=
  ⟨rfl, rfl, rfl, rfl⟩

/-- C9: the lexer produces `++` and `--` tokens, but no expression
production consumes them: with the current token `INCR` or `DECR`, the
expression parser falls through every precedence level to `ParseTermExpr`,
which raises the `expecting term` syntax error (8 units of fuel cover the
fixed call chain, so the result holds for every sufficient fuel). -/
theorem incr_decr_rejected_as_term :
    tokenize "++" = .ok [.incr, .endT] ∧
    tokenize "--" = .ok [.decr, .endT] ∧
    (∀ (n : Nat) (rest : List Token),
      parseExpr (n + 8) (.incr :: rest) = .error (.expectedTerm .incr)) ∧
    (∀ (n : Nat) (rest : List Token),
      parseExpr (n + 8) (.decr :: rest) = .error (.expectedTerm .decr)) :=
  ⟨rfl, rfl, fun _ _ => rfl, fun _ _ => rfl⟩

/-- C10: `PrintInt` peeks (does not pop) the integer on top of the stack
and pushes a copy: the resulting stack is exactly one slot deeper, the
integer duplicated on top and everything below unchanged; `PrintBool`
behaves the same on a boolean top of stack. -/
theorem print_primitives_duplicate_top
    (pc : Nat) (stack : List Value) (inp : List Int) (out : List String) :
    (∀ i : Int, runPrim .printInt ⟨pc, .int i :: stack, inp, out⟩
        = .ok ⟨pc, .int i :: .int i :: stack, inp, out ++ [toString i]⟩) ∧
    (∀ b : Bool, runPrim .printBool ⟨pc, .bool b :: stack, inp, out⟩
        = .ok ⟨pc, .bool b :: .bool b :: stack, inp,
                out ++ [if b then "true" else "false"]⟩) :=
  ⟨fun _ => rfl, fun _ => rfl⟩

end Imp
